import Mathlib

/-!
Verification development for the HashPay wallet screens.

The TypeScript source is shallowly embedded in Lean: JavaScript numbers are
modeled as exact rationals (`ℚ`), strings as Lean `String`, and the relevant
React event handlers / memoized computations as pure Lean functions of the
component state they read.  Host-environment parameters are fixed as follows:
the host locale used by `toLocaleString` is an en-US-style locale (`.`
decimal point, `,` thousands separator) and the host local time zone is UTC,
so local-civil-time and UTC computations of the JS `Date` object coincide.
-/

namespace HashPay

/-! ## Models of the JavaScript primitives used by the source -/

/-- Model of the JS idiom `x || d` applied to a number that may be absent
(`undefined`): `undefined` and the falsy number `0` yield the default `d`,
any other number is returned unchanged. -/
def jsOrQ (x : Option ℚ) (d : ℚ) : ℚ :=
  match x with
  | some v => if v = 0 then d else v
  | none => d

/-- Digits (most significant first) to a natural number, as the numeric
parsing primitives of JS do for decimal digit runs. -/
def digitsToNat (ds : List Char) : ℕ :=
  ds.foldl (fun a c => a * 10 + (c.toNat - '0'.toNat)) 0

/-- Model of JS `parseFloat` on the decimal fragment exercised by the app:
optional leading whitespace, optional sign, an integer digit run, an optional
`.` followed by a fraction digit run.  A string with no leading numeric
prefix parses to `NaN`, modeled as `none` (exponent forms and `Infinity`
do not occur in this codebase and are treated as out of the modeled
fragment). -/
def parseFloatQ (s : String) : Option ℚ :=
  let cs := s.data.dropWhile (fun c => c.isWhitespace)
  let sgn : Bool × List Char :=
    match cs with
    | '-' :: rest => (true, rest)
    | '+' :: rest => (false, rest)
    | _ => (false, cs)
  let intDs := sgn.2.takeWhile Char.isDigit
  let rest := sgn.2.dropWhile Char.isDigit
  let fracDs :=
    match rest with
    | '.' :: r => r.takeWhile Char.isDigit
    | _ => []
  if intDs.isEmpty && fracDs.isEmpty then none
  else
    let v : ℚ := (digitsToNat intDs : ℚ) + (digitsToNat fracDs : ℚ) / ((10 : ℚ) ^ fracDs.length)
    some (if sgn.1 then -v else v)

/-- Model of `s.replace(/,/g, '')`: delete every comma. -/
def stripCommas (s : String) : String := ⟨s.data.filter (fun c => c ≠ ',')⟩

/-- Model of JS `String.prototype.toLowerCase` on the ASCII strings this app
uses. -/
def toLowerStr (s : String) : String := ⟨s.data.map Char.toLower⟩

def listIsPrefixOfB : List Char → List Char → Bool
  | [], _ => true
  | _ :: _, [] => false
  | a :: as, b :: bs => a = b && listIsPrefixOfB as bs

def listContainsSub (needle : List Char) : List Char → Bool
  | [] => needle.isEmpty
  | c :: t => listIsPrefixOfB needle (c :: t) || listContainsSub needle t

/-- Model of JS `hay.includes(needle)`. -/
def containsSub (needle hay : String) : Bool := listContainsSub needle.data hay.data

/-! ## Model of `Number.prototype.toLocaleString` with fraction-digit options

Per ECMA-402 with an en-US-style host locale: the value is rounded
half-away-from-zero to at most `maxF` fraction digits, trailing fraction
zeros are dropped but at least `minF` fraction digits are shown, and the
integer part is grouped in threes with `,`. -/

def padLeftZeros (len : ℕ) (s : List Char) : List Char :=
  List.replicate (len - s.length) '0' ++ s

/-- Drop up to `k` trailing zeros; the input is given reversed. -/
def dropZerosBounded : ℕ → List Char → List Char
  | 0, l => l
  | _ + 1, [] => []
  | k + 1, c :: t => if c = '0' then dropZerosBounded k t else c :: t

def stripTrailingZerosTo (minLen : ℕ) (s : List Char) : List Char :=
  (dropZerosBounded (s.length - minLen) s.reverse).reverse

/-- Group a reversed digit list in threes with commas. -/
def group3Aux : List Char → List Char
  | a :: b :: c :: d :: rest => a :: b :: c :: ',' :: group3Aux (d :: rest)
  | l => l

def group3 (ds : List Char) : List Char := (group3Aux ds.reverse).reverse

def natDigits (x : ℕ) : List Char := (toString x).data

def fmtNonneg (minF maxF : ℕ) (q : ℚ) : String :=
  let scaled : ℤ := Int.floor (q * (10 : ℚ) ^ maxF + 1 / 2)
  let ip := scaled.toNat / 10 ^ maxF
  let fp := scaled.toNat % 10 ^ maxF
  let fracStr := stripTrailingZerosTo minF (padLeftZeros maxF (natDigits fp))
  let ipStr := group3 (natDigits ip)
  if fracStr.isEmpty then ⟨ipStr⟩ else ⟨ipStr ++ '.' :: fracStr⟩

def toLocaleMinMax (minF maxF : ℕ) (q : ℚ) : String :=
  if q < 0 then "-" ++ fmtNonneg minF maxF (-q) else fmtNonneg minF maxF q

/-! ## SwapScreen (src/screens/SwapScreen.tsx)

State hooks of the component that the embedded computations read. -/

structure SwapState where
  amount : String
  fromSymbol : String
  toSymbol : String
  fromBalance : String
  prices : String → Option ℚ
  useMesh : Bool

/-- The repeated source idiom `prices[symbol] || 1` (SwapScreen lines 21-22
and the stats computation of the history screen). -/
def rateLookup (prices : String → Option ℚ) (sym : String) : ℚ := jsOrQ (prices sym) 1

/-- SwapScreen line 23: `const output = (parseFloat(amount) * fromRate) / toRate`. -/
def quoteValue (prices : String → Option ℚ) (fromSym toSym : String) (a : ℚ) : ℚ :=
  a * rateLookup prices fromSym / rateLookup prices toSym

/-- SwapScreen lines 19-28: the `estimatedOutput` effect.  When the amount
string is truthy and parses to a positive number, the quote is formatted
with `toLocaleString(undefined, {minimumFractionDigits: 2,
maximumFractionDigits: 6})`; otherwise the display is `0.00`. -/
def estimatedOutput (s : SwapState) : String :=
  match parseFloatQ s.amount with
  | some a =>
      if s.amount ≠ "" ∧ 0 < a then
        toLocaleMinMax 2 6 (quoteValue s.prices s.fromSymbol s.toSymbol a)
      else "0.00"
  | none => "0.00"

/-- The two toast outcomes and the `swapAssets` invocation of `handleSwap`
(SwapScreen lines 30-44).  A `NaN` amount is carried as `none`. -/
inductive SwapCall
  | errToast (msg : String)
  | callSwapAssets (fromSym toSym : String) (a : Option ℚ)
  deriving DecidableEq

/-- JS `x <= 0` where `x` may be `NaN` (`NaN <= 0` is `false`). -/
def jsLeZero : Option ℚ → Bool
  | some v => decide (v ≤ 0)
  | none => false

/-- JS `x > y` where either side may be `NaN` (any comparison with `NaN` is
`false`). -/
def jsGtOpt : Option ℚ → Option ℚ → Bool
  | some a, some b => decide (b < a)
  | _, _ => false

/-- SwapScreen lines 30-44: validation guards, then the `swapAssets` call.
`!amount` is true exactly for the empty string. -/
def handleSwap (s : SwapState) : SwapCall :=
  if s.amount = "" ∨ jsLeZero (parseFloatQ s.amount) = true then
    .errToast "Please enter a valid amount"
  else if jsGtOpt (parseFloatQ s.amount) (parseFloatQ (stripCommas s.fromBalance)) = true then
    .errToast "Insufficient balance"
  else
    .callSwapAssets s.fromSymbol s.toSymbol (parseFloatQ s.amount)

/-- The wallet-context state that `swapAssets` may mutate. -/
structure WState where
  balances : String → ℚ
  transactions : List String

/-! ## The JS `Date` model used by the history screen

A JS `Date` is its time value: milliseconds since the epoch (an `ℤ` here;
the local zone is fixed to UTC, see the header).  Civil (year, month, day)
triples are turned into day numbers with the standard proleptic-Gregorian
day-numbering algorithm, which is exactly ECMA-262 `MakeDay` including its
normalization of out-of-range day-of-month values (the day enters the
formula linearly). -/

def DAY : ℤ := 86400000

/-- Day number (days since 1970-01-01) of the first day of civil month
`(y, m)`, `m ∈ [1,12]`. -/
def monthStartDays (y m : ℤ) : ℤ :=
  let y2 := if m ≤ 2 then y - 1 else y
  let era := Int.fdiv y2 400
  let yoe := y2 - era * 400
  let mp := Int.emod (m + 9) 12
  let doe := yoe * 365 + Int.fdiv yoe 4 - Int.fdiv yoe 100 + Int.fdiv (153 * mp + 2) 5
  era * 146097 + doe - 719468

/-- Day number of civil `(y, m, d)`; `d` may be out of range and is
normalized by linear overflow, as in `MakeDay`. -/
def days_from_civil (y m d : ℤ) : ℤ := monthStartDays y m + (d - 1)

/-- The query-time instant `now = new Date()`, given by its local civil
reading: year, month `∈ [1,12]`, day of month, and milliseconds into the
day. -/
structure Now where
  y : ℤ
  m : ℤ
  d : ℤ
  t : ℤ

/-- `now.getTime()`. -/
def nowMs (n : Now) : ℤ := days_from_civil n.y n.m n.d * DAY + n.t

/-- `new Date(now.getFullYear(), now.getMonth(), now.getDate())`: local
midnight of the current civil day. -/
def startOfTodayMs (n : Now) : ℤ := days_from_civil n.y n.m n.d * DAY

/-- `d.setDate(d.getDate() - k)` applied to a copy of `now`: same civil
year/month and time of day, day of month shifted by `k`. -/
def dateMinusDays (n : Now) (k : ℤ) : ℤ :=
  days_from_civil n.y n.m (n.d - k) * DAY + n.t

/-- `monthAgo.setMonth(monthAgo.getMonth() - 1)`: previous calendar month,
same day of month (overflow-normalized) and time of day.  `getMonth` is
0-based, so the target 0-based month is `n.m - 2`, renormalized into a
year/month pair. -/
def monthAgoMs (n : Now) : ℤ :=
  let m0 := n.m - 2
  days_from_civil (n.y + Int.fdiv m0 12) (Int.emod m0 12 + 1) n.d * DAY + n.t

/-- `yearAgo.setFullYear(yearAgo.getFullYear() - 1)`. -/
def yearAgoMs (n : Now) : ℤ :=
  days_from_civil (n.y - 1) n.m n.d * DAY + n.t

/-- `weekAgo.setDate(weekAgo.getDate() - 7)`. -/
def weekAgoMs (n : Now) : ℤ := dateMinusDays n 7

def leapYear (y : ℤ) : Bool :=
  (Int.emod y 4 = 0 && Int.emod y 100 ≠ 0) || Int.emod y 400 = 0

def daysInMonth (y m : ℤ) : ℤ :=
  if m = 2 then (if leapYear y then 29 else 28)
  else if m = 4 ∨ m = 6 ∨ m = 9 ∨ m = 11 then 30
  else 31

/-- Model of `new Date(dateStr)` restricted to ECMA-262 date-only ISO
strings `YYYY-MM-DD`, which parse to UTC midnight of that day; any other
string is treated as an invalid date (`none`), which the caller turns into
`now`, matching the source's `isNaN(parsed.getTime())` fallback.  Extra
host-specific parseable formats are outside the modeled fragment. -/
def parseStdDate (s : String) : Option ℤ :=
  match s.data with
  | [a, b, c, d, '-', e, f, '-', g, h] =>
      if (a.isDigit && b.isDigit && c.isDigit && d.isDigit &&
          e.isDigit && f.isDigit && g.isDigit && h.isDigit : Bool) then
        let y : ℤ := (digitsToNat [a, b, c, d] : ℤ)
        let mo : ℤ := (digitsToNat [e, f] : ℤ)
        let dd : ℤ := (digitsToNat [g, h] : ℤ)
        if 1 ≤ mo ∧ mo ≤ 12 ∧ 1 ≤ dd ∧ dd ≤ daysInMonth y mo then
          some (days_from_civil y mo dd * DAY)
        else none
      else none
  | _ => none

/-! ## TransactionHistoryScreen (src/unnamed/part_001) -/

inductive TxType
  | sent
  | received
  deriving DecidableEq

def typeStr : TxType → String
  | .sent => "sent"
  | .received => "received"

structure Transaction where
  id : String
  type : TxType
  amount : String
  currency : String
  recipient : String
  date : String
  deriving DecidableEq

inductive FilterType
  | all
  | sent
  | received
  deriving DecidableEq

inductive DateFilter
  | all
  | today
  | week
  | month
  | year
  deriving DecidableEq

/-- Scan for the leftmost occurrence of the regex `(\d+)\s*days?\s*ago`
starting at the head of the list. -/
def matchDaysAgoAt (cs : List Char) : Option ℕ :=
  let ds := cs.takeWhile Char.isDigit
  if ds.isEmpty then none
  else
    let r1 := (cs.drop ds.length).dropWhile Char.isWhitespace
    if listIsPrefixOfB ['d', 'a', 'y'] r1 then
      let r2 := r1.drop 3
      let r3 := match r2 with
        | 's' :: t => t
        | _ => r2
      let r4 := r3.dropWhile Char.isWhitespace
      if listIsPrefixOfB ['a', 'g', 'o'] r4 then some (digitsToNat ds) else none
    else none

/-- `lower.match(/(\d+)\s*days?\s*ago/)`: the captured digit run of the
leftmost match. -/
def findDaysAgo : List Char → Option ℕ
  | [] => none
  | c :: t =>
      match matchDaysAgoAt (c :: t) with
      | some k => some k
      | none => findDaysAgo t

/-- `new Date(dateStr)` with the `isNaN` guard of parseDate's last two
lines: an unparsable date becomes `now`. -/
def stdParseOrNow (n : Now) (s : String) : ℤ :=
  match parseStdDate s with
  | some v => v
  | none => nowMs n

/-- part_001 lines 28-51, `parseDate`: relative markers first (checked on
the lowercased string), then the standard date parse with fallback to
`now`. -/
def parseDate (n : Now) (s : String) : ℤ :=
  let lower := toLowerStr s
  if containsSub "today" lower then nowMs n
  else if containsSub "yesterday" lower then dateMinusDays n 1
  else if containsSub "days ago" lower then
    match findDaysAgo lower.data with
    | some k => dateMinusDays n (k : ℤ)
    | none => stdParseOrNow n s
  else stdParseOrNow n s

/-- part_001 lines 58-66: the free-text search filter (skipped when the
trimmed query is empty; note the source lowercases the untrimmed query). -/
def applySearch (q : String) (txs : List Transaction) : List Transaction :=
  if q.trim.isEmpty then txs
  else
    let query := toLowerStr q
    txs.filter fun tx =>
      containsSub query (toLowerStr tx.recipient) ||
      containsSub query (toLowerStr tx.amount) ||
      containsSub query (toLowerStr tx.currency) ||
      containsSub query (toLowerStr tx.id)

def typeMatches (tf : FilterType) (ty : TxType) : Bool :=
  match tf, ty with
  | .sent, .sent => true
  | .received, .received => true
  | _, _ => false

/-- part_001 lines 69-71: `tx.type === typeFilter`, skipped for `all`. -/
def applyType (tf : FilterType) (txs : List Transaction) : List Transaction :=
  if tf = .all then txs else txs.filter fun tx => typeMatches tf tx.type

/-- part_001 lines 74-103: the date filter switch, skipped for `all`. -/
def applyDate (n : Now) (df : DateFilter) (txs : List Transaction) : List Transaction :=
  if df = .all then txs
  else
    txs.filter fun tx =>
      let txDate := parseDate n tx.date
      match df with
      | .today => decide (startOfTodayMs n ≤ txDate)
      | .week => decide (weekAgoMs n ≤ txDate)
      | .month => decide (monthAgoMs n ≤ txDate)
      | .year => decide (yearAgoMs n ≤ txDate)
      | .all => true

/-- part_001 lines 54-106, `filteredTransactions`: search, then type, then
date. -/
def filteredTransactions (n : Now) (q : String) (tf : FilterType) (df : DateFilter)
    (txs : List Transaction) : List Transaction :=
  applyDate n df (applyType tf (applySearch q txs))

/-- `parseFloat(tx.amount.replace(/,/g, ''))` in the stats reducers; the
data model's amounts are numeric strings, so the `NaN` escape is
represented by `0` here (a `NaN` would poison the whole float sum and is
outside the modeled fragment). -/
def txAmountValue (tx : Transaction) : ℚ :=
  (parseFloatQ (stripCommas tx.amount)).getD 0

/-- part_001 lines 113-117: fiat-valued sum of the sent transactions. -/
def totalSent (prices : String → Option ℚ) (txs : List Transaction) : ℚ :=
  (txs.filter fun tx => decide (tx.type = TxType.sent)).foldl
    (fun acc tx => acc + txAmountValue tx * rateLookup prices tx.currency) 0

/-- part_001 lines 119-123: fiat-valued sum of the received transactions. -/
def totalReceived (prices : String → Option ℚ) (txs : List Transaction) : ℚ :=
  (txs.filter fun tx => decide (tx.type = TxType.received)).foldl
    (fun acc tx => acc + txAmountValue tx * rateLookup prices tx.currency) 0

/-- part_001 line 131: `netFlow: totalReceived - totalSent`. -/
def netFlow (prices : String → Option ℚ) (txs : List Transaction) : ℚ :=
  totalReceived prices txs - totalSent prices txs

/-- part_001 lines 136-150, the pure string built by `exportToCSV`:
header join, per-row cell quoting and join, newline join. -/
def csvHeaders : List String := ["ID", "Type", "Amount", "Currency", "Recipient", "Date"]

def csvFields (tx : Transaction) : List String :=
  [tx.id, typeStr tx.type, tx.amount, tx.currency, tx.recipient, tx.date]

def csvContent (txs : List Transaction) : String :=
  String.intercalate "\n"
    (String.intercalate "," csvHeaders ::
      txs.map fun tx =>
        String.intercalate "," ((csvFields tx).map fun cell => "\"" ++ cell ++ "\""))

/-- The state effect of `handleSwap`: all mutation goes through the
`swapAssets` context call, so an early validation return leaves the state
untouched; `impl` stands for the (context-provided) `swapAssets`. -/
def applyHandleSwap (impl : WState → String → String → Option ℚ → WState)
    (w : WState) (s : SwapState) : WState :=
  match handleSwap s with
  | .errToast _ => w
  | .callSwapAssets f t a => impl w f t a

/-! ## EscrowScreen (second component of src/screens/ReceiveScreen.tsx) -/

inductive EscStatus
  | pending
  | signed
  | disputed
  | released
  | refunded
  | expired
  deriving DecidableEq

structure Escrow where
  id : String
  amount : String
  recipient : String
  expiryDate : String
  status : EscStatus
  deriving DecidableEq

structure Contact where
  name : String
  address : String

/-- Observable effects of the escrow handlers, in program order: the local
registry creation, the external (on-chain) settlement attempt, the
`console.warn` that reports a failed external call, and the toasts. -/
inductive UIEvent
  | localCreated (e : Escrow)
  | externalCall (addr : String) (amount : String)
  | warnLogged
  | toast (msg : String) (kind : String)
  deriving DecidableEq

/-- The escrow object literal built by `handleCreateEscrow`
(ReceiveScreen.tsx escrow component, lines 273-279):
`{id, amount: `${amount} ${currency}`, recipient, expiryDate: '7 Days',
status: 'pending'}`. -/
def mkEscrowEntry (newId amount currency recipient : String) : Escrow :=
  ⟨newId, amount ++ " " ++ currency, recipient, "7 Days", .pending⟩

/-- `contacts.find(c => c.name === recipient)` followed by
`contact?.address || recipient` (an empty address string is falsy). -/
def resolveRecipientAddr (contacts : List Contact) (recipient : String) : String :=
  match contacts.find? fun c => c.name = recipient with
  | some c => if c.address = "" then recipient else c.address
  | none => recipient

/-- Modelled from the spec: `createEscrow` lives in `WalletContext`, which is
not under src/ — §4.4 of the design says escrow creation "creates a
`pending` registry entry", so the context call is modeled as appending the
entry the screen passes to it to the escrow registry list. -/
def createEscrow (escrows : List Escrow) (e : Escrow) : List Escrow := escrows ++ [e]

/-- `handleCreateEscrow` (ReceiveScreen.tsx escrow component, lines
265-292): build the entry, commit it locally via `createEscrow`, then
attempt the external settlement call inside `try`/`catch` — a rejection is
swallowed by the `catch`, which only `console.warn`s — and finally show the
success toast.  `extOutcome` is the resolution of the awaited
`createEscrowOnChain` promise (also a `WalletContext` member absent from
src/; per §5 of the spec it has no local effect, only an external one, so it
contributes only the trace event). -/
def handleCreateEscrow (escrows : List Escrow) (contacts : List Contact)
    (amount currency recipient newId : String) (extOutcome : Except String Unit) :
    List Escrow × List UIEvent :=
  let entry := mkEscrowEntry newId amount currency recipient
  let escrows1 := createEscrow escrows entry
  let addr := resolveRecipientAddr contacts recipient
  let extEvents :=
    match extOutcome with
    | .ok _ => [UIEvent.externalCall addr amount]
    | .error _ => [UIEvent.externalCall addr amount, UIEvent.warnLogged]
  (escrows1,
    UIEvent.localCreated entry :: extEvents ++ [UIEvent.toast "Escrow Created Successfully" "success"])

inductive EscrowAct
  | signAct
  | disputeAct
  | releaseAct
  deriving DecidableEq

/-- `handleAction` (ReceiveScreen.tsx escrow component, lines 294-305): the
sign and dispute branches only show a toast — the comments in the source
say "In real app, this would update status to 'signed'" / "Update status to
'disputed'" but no state is touched; the release branch calls the context's
`releaseEscrow` (absent from src/, abstracted as `releaseImpl`). -/
def handleAction (releaseImpl : List Escrow → String → List Escrow)
    (escrows : List Escrow) (id : String) (act : EscrowAct) :
    List Escrow × List UIEvent :=
  match act with
  | .signAct => (escrows, [UIEvent.toast "Escrow Signed & Approved" "success"])
  | .disputeAct => (escrows, [UIEvent.toast "Dispute Opened (Stubborn Mode)" "warning"])
  | .releaseAct => (releaseImpl escrows id, [UIEvent.toast "Funds Released" "success"])

/-! ## Concrete fixtures used by the scenario theorems -/

/-- The spec scenario for the swap quote: amount 100, rate(SUI) = 1.5,
rate(USDC) = 1. -/
def swapScenario : SwapState :=
  { amount := "100"
    fromSymbol := "SUI"
    toSymbol := "USDC"
    fromBalance := "1,000"
    prices := fun sym => if sym = "SUI" then some (3 / 2) else if sym = "USDC" then some 1 else none
    useMesh := false }

/-- An amount (300) exceeding the balance (100): the insufficient-funds
path. -/
def swapInsufficient : SwapState :=
  { swapScenario with amount := "300", fromBalance := "100" }

/-- A non-positive amount: the invalid-amount path. -/
def swapNonpositive : SwapState :=
  { swapScenario with amount := "-5" }

def wStateZero : WState := ⟨fun _ => 0, []⟩

/-- A price cache that stores the rate 0 for SUI. -/
def pricesZeroSUI : String → Option ℚ := fun sym => if sym = "SUI" then some 0 else none

/-- Price caches for the zero-versus-unknown comparison: identical except
that the first stores rate 0 for SUI and the second has no SUI entry. -/
def pricesWithZero : String → Option ℚ :=
  fun sym => if sym = "SUI" then some 0 else if sym = "USDC" then some 1 else none

def pricesNoSUI : String → Option ℚ :=
  fun sym => if sym = "SUI" then none else if sym = "USDC" then some 1 else none

def txSuiSent : Transaction := ⟨"T3", .sent, "40", "SUI", "Ada", "today"⟩

/-- Query time 2024-06-10, 12:00:00 UTC. -/
def nowJune2024 : Now := ⟨2024, 6, 10, 43200000⟩

/-- A transaction whose stored date parses to 2099-01-01, after the query
time. -/
def futureTx : Transaction := ⟨"T9", .received, "100", "USD", "Bob", "2099-01-01"⟩

def pendingEscrowDemo : Escrow := ⟨"483920", "500.00 USD", "Jane Cooper", "7 Days", .pending⟩

/-! ## Helper lemmas -/

/-- The civil day number is linear in the day-of-month argument (the
`MakeDay` overflow rule). -/
theorem days_from_civil_day_shift (y m d k : ℤ) :
    days_from_civil y m (d - k) = days_from_civil y m d - k := by
  unfold days_from_civil
  ring

/-- `setDate(getDate() - k)` subtracts exactly `k` days from the time
value. -/
theorem dateMinusDays_eq (n : Now) (k : ℤ) : dateMinusDays n k = nowMs n - k * DAY := by
  unfold dateMinusDays nowMs
  rw [days_from_civil_day_shift]
  ring

theorem weekAgoMs_eq (n : Now) : weekAgoMs n = nowMs n - 7 * DAY := dateMinusDays_eq n 7

theorem foldl_add_map_sum {α : Type} (f : α → ℚ) (l : List α) (acc : ℚ) :
    l.foldl (fun a x => a + f x) acc = acc + (l.map f).sum := by
  induction l generalizing acc with
  | nil => simp
  | cons x t ih =>
    simp only [List.foldl_cons, List.map_cons, List.sum_cons, ih]
    ring

theorem parseFloatQ_100 : parseFloatQ "100" = some 100 := by
  have h : parseFloatQ "100" =
      some (((100 : ℕ) : ℚ) + ((0 : ℕ) : ℚ) / (10 : ℚ) ^ (0 : ℕ)) := rfl
  rw [h]
  norm_num

theorem parseFloatQ_neg5 : parseFloatQ "-5" = some (-5) := by
  have h : parseFloatQ "-5" =
      some (-(((5 : ℕ) : ℚ) + ((0 : ℕ) : ℚ) / (10 : ℚ) ^ (0 : ℕ))) := rfl
  rw [h]
  norm_num

theorem parseFloatQ_300 : parseFloatQ "300" = some 300 := by
  have h : parseFloatQ "300" =
      some (((300 : ℕ) : ℚ) + ((0 : ℕ) : ℚ) / (10 : ℚ) ^ (0 : ℕ)) := rfl
  rw [h]
  norm_num

theorem parseFloatQ_comma1000 : parseFloatQ (stripCommas "1,000") = some 1000 := by
  have h : parseFloatQ (stripCommas "1,000") =
      some (((1000 : ℕ) : ℚ) + ((0 : ℕ) : ℚ) / (10 : ℚ) ^ (0 : ℕ)) := rfl
  rw [h]
  norm_num

theorem quoteValue_scenario :
    quoteValue swapScenario.prices swapScenario.fromSymbol swapScenario.toSymbol 100 = 150 := by
  have hS : rateLookup swapScenario.prices swapScenario.fromSymbol =
      (if (3 / 2 : ℚ) = 0 then 1 else 3 / 2) := rfl
  have hU : rateLookup swapScenario.prices swapScenario.toSymbol =
      (if (1 : ℚ) = 0 then 1 else 1) := rfl
  unfold quoteValue
  rw [hS, hU, if_neg (by norm_num : ¬(3 / 2 : ℚ) = 0), if_neg (by norm_num : ¬(1 : ℚ) = 0)]
  norm_num

theorem toLocale_150 : toLocaleMinMax 2 6 (150 : ℚ) = "150.00" := by
  have hfl : Int.floor ((150 : ℚ) * (10 : ℚ) ^ (6 : ℕ) + 1 / 2) = 150000000 := by
    rw [Int.floor_eq_iff]
    constructor
    · norm_num
    · norm_num
  unfold toLocaleMinMax
  rw [if_neg (by norm_num : ¬(150 : ℚ) < 0)]
  unfold fmtNonneg
  rw [hfl]
  decide

theorem estimatedOutput_scenario : estimatedOutput swapScenario = "150.00" := by
  have h1 : estimatedOutput swapScenario =
      toLocaleMinMax 2 6
        (quoteValue swapScenario.prices swapScenario.fromSymbol swapScenario.toSymbol 100) := by
    unfold estimatedOutput
    rw [show parseFloatQ swapScenario.amount = some 100 from parseFloatQ_100]
    exact if_pos ⟨by decide, by norm_num⟩
  rw [h1, quoteValue_scenario, toLocale_150]

/-! ## Claim theorems -/

/-- Claim C1, counterexample: at the spec scenario `quoteSwap(SUI, USDC,
100)` with rate(SUI) = 1.5 and rate(USDC) = 1.0, the screen displays
`150.00` — `minimumFractionDigits` is 2, not 6 — and not the `150.000000`
the claim requires. -/
theorem quote_scenario_displays_150_00 :
    estimatedOutput swapScenario = "150.00" ∧ "150.00" ≠ "150.000000" :=
  ⟨estimatedOutput_scenario, by decide⟩

/-- Claim C1 (amended): for a truthy amount string parsing to a positive
number, the displayed estimate is the exact rational
`amount × rate(from) / rate(to)` (rates falling back to 1 via `|| 1`)
rounded only for display, with at least 2 and at most 6 fractional digits;
the scenario `quoteSwap(SUI, USDC, 100)` at rate(SUI) = 1.5,
rate(USDC) = 1.0 displays `150.00`. -/
theorem quote_display (s : SwapState) (a : ℚ)
    (hp : parseFloatQ s.amount = some a) (ha : 0 < a) :
    estimatedOutput s =
      toLocaleMinMax 2 6 (a * rateLookup s.prices s.fromSymbol / rateLookup s.prices s.toSymbol) ∧
    estimatedOutput swapScenario = "150.00" := by
  have hnil : parseFloatQ "" = none := rfl
  have hne : s.amount ≠ "" := by
    intro h
    rw [h, hnil] at hp
    exact Option.noConfusion hp
  constructor
  · unfold estimatedOutput
    rw [hp]
    show (if s.amount ≠ "" ∧ 0 < a then
        toLocaleMinMax 2 6 (quoteValue s.prices s.fromSymbol s.toSymbol a)
      else "0.00") = _
    rw [if_pos ⟨hne, ha⟩]
    rfl
  · exact estimatedOutput_scenario

/-- Witness for the C1 theorem: the scenario state satisfies its
hypotheses. -/
theorem quote_display_witness :
    parseFloatQ "100" = some 100 ∧ (0 : ℚ) < 100 ∧
      (estimatedOutput swapScenario =
        toLocaleMinMax 2 6 (100 * rateLookup swapScenario.prices swapScenario.fromSymbol /
          rateLookup swapScenario.prices swapScenario.toSymbol) ∧
        estimatedOutput swapScenario = "150.00") :=
  ⟨parseFloatQ_100, by norm_num, quote_display swapScenario 100 parseFloatQ_100 (by norm_num)⟩

/-- Claim C2: `handleSwap` rejects a non-positive amount with the
invalid-amount toast and an amount exceeding the (comma-stripped) balance
with the insufficient-balance toast, and in both failure cases it returns
before the `swapAssets` call, so the wallet state is left untouched for
every possible `swapAssets` implementation. -/
theorem handleSwap_validation (s : SwapState) (v b : ℚ)
    (hv : parseFloatQ s.amount = some v)
    (hb : parseFloatQ (stripCommas s.fromBalance) = some b) :
    (v ≤ 0 →
      handleSwap s = .errToast "Please enter a valid amount" ∧
      ∀ impl w, applyHandleSwap impl w s = w) ∧
    (0 < v → b < v →
      handleSwap s = .errToast "Insufficient balance" ∧
      ∀ impl w, applyHandleSwap impl w s = w) := by
  have hnil : parseFloatQ "" = none := rfl
  have hne : s.amount ≠ "" := by
    intro h
    rw [h, hnil] at hv
    exact Option.noConfusion hv
  constructor
  · intro hv0
    have hcond : s.amount = "" ∨ jsLeZero (parseFloatQ s.amount) = true :=
      Or.inr (by rw [hv]; simp [jsLeZero, hv0])
    have hs : handleSwap s = .errToast "Please enter a valid amount" := by
      unfold handleSwap
      rw [if_pos hcond]
    exact ⟨hs, fun impl w => by unfold applyHandleSwap; rw [hs]⟩
  · intro hv0 hbv
    have hcond : ¬(s.amount = "" ∨ jsLeZero (parseFloatQ s.amount) = true) := by
      rintro (h | h)
      · exact hne h
      · rw [hv] at h
        simp [jsLeZero] at h
        exact absurd h (not_le.mpr hv0)
    have hs : handleSwap s = .errToast "Insufficient balance" := by
      unfold handleSwap
      rw [if_neg hcond, hv, hb]
      simp [jsGtOpt, hbv]
    exact ⟨hs, fun impl w => by unfold applyHandleSwap; rw [hs]⟩

/-- Witness for the C2 theorem: both validation failures at concrete
states, each leaving a concrete wallet state unchanged. -/
theorem handleSwap_validation_witness :
    (handleSwap swapNonpositive = .errToast "Please enter a valid amount" ∧
      applyHandleSwap (fun w _ _ _ => w) wStateZero swapNonpositive = wStateZero) ∧
    (handleSwap swapInsufficient = .errToast "Insufficient balance" ∧
      applyHandleSwap (fun w _ _ _ => w) wStateZero swapInsufficient = wStateZero) := by
  constructor
  · have h := (handleSwap_validation swapNonpositive (-5) 1000 parseFloatQ_neg5
      parseFloatQ_comma1000).1 (by norm_num)
    exact ⟨h.1, h.2 _ _⟩
  · have h := (handleSwap_validation swapInsufficient 300 100 parseFloatQ_300
      parseFloatQ_100).2 (by norm_num) (by norm_num)
    exact ⟨h.1, h.2 _ _⟩

/-- Claim C3: escrow creation commits the `pending` registry entry locally
before the external settlement call; when the external call fails the
entry is kept exactly as on success (never rolled back) and the failure is
only reported (a `console.warn`), after which the success toast still
fires. -/
theorem escrow_create_local_first (escrows : List Escrow) (contacts : List Contact)
    (amount currency recipient newId errMsg : String) :
    (handleCreateEscrow escrows contacts amount currency recipient newId (.error errMsg)).1 =
      escrows ++ [mkEscrowEntry newId amount currency recipient] ∧
    (mkEscrowEntry newId amount currency recipient).status = .pending ∧
    (handleCreateEscrow escrows contacts amount currency recipient newId (.error errMsg)).1 =
      (handleCreateEscrow escrows contacts amount currency recipient newId (.ok ())).1 ∧
    (handleCreateEscrow escrows contacts amount currency recipient newId (.error errMsg)).2 =
      [UIEvent.localCreated (mkEscrowEntry newId amount currency recipient),
        UIEvent.externalCall (resolveRecipientAddr contacts recipient) amount,
        UIEvent.warnLogged,
        UIEvent.toast "Escrow Created Successfully" "success"] :=
  ⟨rfl, rfl, rfl, rfl⟩

/-- Claim C4 (code bug): the sign action only shows a success toast — it
performs no state transition at all, so a `pending` escrow stays `pending`
rather than becoming `signed`, and an unknown id produces the same success
toast instead of a `NotFound` failure; this holds for every
`releaseEscrow` implementation the context could provide. -/
theorem sign_leaves_escrow_pending :
    ∀ releaseImpl : List Escrow → String → List Escrow,
      (handleAction releaseImpl [pendingEscrowDemo] "483920" .signAct).1 = [pendingEscrowDemo] ∧
      pendingEscrowDemo.status = .pending ∧
      (handleAction releaseImpl [pendingEscrowDemo] "483920" .signAct).2 =
        [UIEvent.toast "Escrow Signed & Approved" "success"] ∧
      (handleAction releaseImpl [pendingEscrowDemo] "no-such-id" .signAct).2 =
        [UIEvent.toast "Escrow Signed & Approved" "success"] :=
  fun _ => ⟨rfl, rfl, rfl, rfl⟩

theorem csv_row_eq (tx : Transaction) :
    String.intercalate "," ((csvFields tx).map fun cell => "\"" ++ cell ++ "\"") =
      "\"" ++ tx.id ++ "\"" ++ "," ++ "\"" ++ typeStr tx.type ++ "\"" ++ "," ++
        "\"" ++ tx.amount ++ "\"" ++ "," ++ "\"" ++ tx.currency ++ "\"" ++ "," ++
        "\"" ++ tx.recipient ++ "\"" ++ "," ++ "\"" ++ tx.date ++ "\"" := by
  simp only [csvFields, List.map_cons, List.map_nil, String.intercalate,
    String.intercalate.go, String.append_assoc]

/-- Claim C5: the tabular export emits the header row
`ID,Type,Amount,Currency,Recipient,Date`, then exactly one quoted
comma-separated row per transaction in the filtered order; on the single
transaction T1 the output is the header plus one quoted row with those
exact six fields. -/
theorem csv_export_shape (txs : List Transaction) :
    csvContent txs =
      String.intercalate "\n"
        ("ID,Type,Amount,Currency,Recipient,Date" ::
          txs.map fun tx =>
            "\"" ++ tx.id ++ "\"" ++ "," ++ "\"" ++ typeStr tx.type ++ "\"" ++ "," ++
              "\"" ++ tx.amount ++ "\"" ++ "," ++ "\"" ++ tx.currency ++ "\"" ++ "," ++
              "\"" ++ tx.recipient ++ "\"" ++ "," ++ "\"" ++ tx.date ++ "\"") ∧
    csvContent [⟨"T1", .sent, "100", "USD", "Jane", "today"⟩] =
      "ID,Type,Amount,Currency,Recipient,Date\n\"T1\",\"sent\",\"100\",\"USD\",\"Jane\",\"today\"" := by
  constructor
  · have hh : String.intercalate "," csvHeaders = "ID,Type,Amount,Currency,Recipient,Date" := by
      decide
    unfold csvContent
    rw [hh]
    simp only [csv_row_eq]
  · decide

set_option maxHeartbeats 1600000 in
/-- Claim C6, counterexample: with query time 2024-06-10 12:00 UTC, the
week filter keeps a transaction dated 2099-01-01 whose parsed date is
after the query time — the rolling windows have a lower bound only and do
not end at query time, contradicting the claimed exact
window characterization. -/
theorem week_filter_keeps_future_tx :
    applyDate nowJune2024 .week [futureTx] = [futureTx] ∧
    nowMs nowJune2024 < parseDate nowJune2024 futureTx.date := by
  decide

set_option maxHeartbeats 1600000 in
/-- Claim C6 (amended): `today` keeps exactly the transactions whose
parsed date is at or after the local-calendar-day start; `week`, `month`
and `year` keep exactly those whose parsed date is at or after query time
minus 7 days / one calendar month / one calendar year — lower bounds only,
with no upper bound at query time.  The stored date is parsed accepting a
"today" / "yesterday" marker, an "N days ago" marker and an ISO date, and
an unparsable date defaults to now. -/
theorem date_filter_windows (n : Now) (txs : List Transaction) :
    applyDate n .today txs =
      (txs.filter fun tx => decide (startOfTodayMs n ≤ parseDate n tx.date)) ∧
    applyDate n .week txs =
      (txs.filter fun tx => decide (nowMs n - 7 * DAY ≤ parseDate n tx.date)) ∧
    applyDate n .month txs =
      (txs.filter fun tx => decide (monthAgoMs n ≤ parseDate n tx.date)) ∧
    applyDate n .year txs =
      (txs.filter fun tx => decide (yearAgoMs n ≤ parseDate n tx.date)) ∧
    parseDate n "today" = nowMs n ∧
    parseDate n "yesterday" = nowMs n - DAY ∧
    parseDate n "3 days ago" = nowMs n - 3 * DAY ∧
    parseDate n "2024-06-05" = days_from_civil 2024 6 5 * DAY ∧
    parseDate n "not-a-date" = nowMs n := by
  refine ⟨rfl, ?_, rfl, rfl, rfl, ?_, ?_, rfl, rfl⟩
  · have h : applyDate n .week txs =
        txs.filter fun tx => decide (weekAgoMs n ≤ parseDate n tx.date) := rfl
    rw [h]
    simp only [weekAgoMs_eq]
  · have h : parseDate n "yesterday" = dateMinusDays n 1 := rfl
    rw [h, dateMinusDays_eq]
    ring
  · have h : parseDate n "3 days ago" = dateMinusDays n 3 := rfl
    rw [h, dateMinusDays_eq]

/-- Claim C7: filtering by type sent and then type received yields the
empty list, and a date filter of `all` is skipped entirely — the pipeline
equals the one with no date stage, so no transaction is removed on account
of its date. -/
theorem sent_received_disjoint_dateAll_noop :
    (∀ txs : List Transaction, applyType .received (applyType .sent txs) = []) ∧
    (∀ (n : Now) (q : String) (tf : FilterType) (txs : List Transaction),
      filteredTransactions n q tf .all txs = applyType tf (applySearch q txs)) := by
  constructor
  · intro txs
    have h : applyType .received (applyType .sent txs) =
        (txs.filter fun tx => typeMatches .sent tx.type).filter
          fun tx => typeMatches .received tx.type := rfl
    rw [h, List.filter_eq_nil_iff]
    intro a ha
    have hs : typeMatches .sent a.type = true := (List.mem_filter.mp ha).2
    cases h2 : a.type with
    | sent => simp [typeMatches]
    | received =>
      rw [h2] at hs
      simp [typeMatches] at hs
  · intro n q tf txs
    unfold filteredTransactions applyDate
    simp

/-- Claim C8, counterexample: SUI is a known symbol of this cache (stored
rate 0), yet the lookup returns the fallback 1, not the stored rate. -/
theorem rate_zero_not_returned :
    pricesZeroSUI "SUI" = some 0 ∧ rateLookup pricesZeroSUI "SUI" = 1 ∧ (1 : ℚ) ≠ 0 := by
  refine ⟨rfl, ?_, by norm_num⟩
  have h : rateLookup pricesZeroSUI "SUI" = (if (0 : ℚ) = 0 then 1 else 0) := rfl
  rw [h, if_pos rfl]

/-- Claim C8 (amended): the rate lookup returns the stored rate for a
known symbol whose rate is nonzero, and returns the explicit fallback 1
both for a symbol absent from the cache and for a stored rate of 0 (the
`|| 1` falsy fallback); the swap quote applies this lookup to both legs
and the sent/received/net-flow aggregation applies it to every summand. -/
theorem rate_lookup_fallback :
    (∀ (p : String → Option ℚ) (sym : String) (r : ℚ),
      p sym = some r → r ≠ 0 → rateLookup p sym = r) ∧
    (∀ (p : String → Option ℚ) (sym : String), p sym = none → rateLookup p sym = 1) ∧
    (∀ (p : String → Option ℚ) (sym : String), p sym = some 0 → rateLookup p sym = 1) ∧
    (∀ (p : String → Option ℚ) (fromS toS : String) (a : ℚ),
      quoteValue p fromS toS a = a * rateLookup p fromS / rateLookup p toS) ∧
    (∀ (p : String → Option ℚ) (txs : List Transaction),
      totalSent p txs =
        ((txs.filter fun tx => decide (tx.type = TxType.sent)).map
          fun tx => txAmountValue tx * rateLookup p tx.currency).sum) ∧
    (∀ (p : String → Option ℚ) (txs : List Transaction),
      totalReceived p txs =
        ((txs.filter fun tx => decide (tx.type = TxType.received)).map
          fun tx => txAmountValue tx * rateLookup p tx.currency).sum) ∧
    (∀ (p : String → Option ℚ) (txs : List Transaction),
      netFlow p txs = totalReceived p txs - totalSent p txs) := by
  refine ⟨?_, ?_, ?_, fun p f t a => rfl, ?_, ?_, fun p txs => rfl⟩
  · intro p sym r hp hr
    simp [rateLookup, jsOrQ, hp, hr]
  · intro p sym hp
    simp [rateLookup, jsOrQ, hp]
  · intro p sym hp
    simp [rateLookup, jsOrQ, hp]
  · intro p txs
    unfold totalSent
    rw [foldl_add_map_sum, zero_add]
  · intro p txs
    unfold totalReceived
    rw [foldl_add_map_sum, zero_add]

/-- Witness for the C8 theorem: concrete caches exercising the known
nonzero, absent and stored-zero cases. -/
theorem rate_lookup_fallback_witness :
    swapScenario.prices "SUI" = some (3 / 2) ∧ ((3 : ℚ) / 2) ≠ 0 ∧
    rateLookup swapScenario.prices "SUI" = 3 / 2 ∧
    swapScenario.prices "BTC" = none ∧ rateLookup swapScenario.prices "BTC" = 1 ∧
    pricesZeroSUI "ETH" = none ∧ rateLookup pricesZeroSUI "ETH" = 1 :=
  ⟨rfl, by norm_num,
    rate_lookup_fallback.1 swapScenario.prices "SUI" (3 / 2) rfl (by norm_num),
    rfl, rate_lookup_fallback.2.1 swapScenario.prices "BTC" rfl,
    rfl, rate_lookup_fallback.2.1 pricesZeroSUI "ETH" rfl⟩

/-- Claim C9: the routing-mode (mesh) toggle is not read by the quote
computation — two swap-screen states differing only in the `useMesh` flag
display the same estimated output. -/
theorem mesh_flag_no_effect_on_quote (s : SwapState) (b : Bool) :
    estimatedOutput { s with useMesh := b } = estimatedOutput s := rfl

/-- Claim C10: a stored rate of exactly 0 behaves like an absent symbol:
the lookup yields the fallback 1, and the swap quote and the
sent/received/net-flow aggregation are unchanged when the zero entry is
replaced by no entry at all. -/
theorem zero_rate_is_unknown (p q : String → Option ℚ) (sym : String)
    (hp : p sym = some 0) (hq : q sym = none)
    (hagree : ∀ x, x ≠ sym → p x = q x) :
    rateLookup p sym = 1 ∧
    (∀ (fromS toS : String) (a : ℚ), quoteValue p fromS toS a = quoteValue q fromS toS a) ∧
    (∀ txs : List Transaction,
      totalSent p txs = totalSent q txs ∧ totalReceived p txs = totalReceived q txs ∧
      netFlow p txs = netFlow q txs) := by
  have hr : rateLookup p = rateLookup q := by
    funext x
    by_cases hx : x = sym
    · subst hx
      unfold rateLookup
      rw [hp, hq]
      simp [jsOrQ]
    · unfold rateLookup
      rw [hagree x hx]
  refine ⟨?_, ?_, ?_⟩
  · unfold rateLookup
    rw [hp]
    simp [jsOrQ]
  · intro f t a
    unfold quoteValue
    rw [hr]
  · intro txs
    have hs : totalSent p txs = totalSent q txs := by unfold totalSent; rw [hr]
    have hrecv : totalReceived p txs = totalReceived q txs := by unfold totalReceived; rw [hr]
    exact ⟨hs, hrecv, by unfold netFlow; rw [hs, hrecv]⟩

/-- Witness for the C10 theorem: a cache storing rate 0 for SUI against
the same cache without the SUI entry. -/
theorem zero_rate_is_unknown_witness :
    pricesWithZero "SUI" = some 0 ∧ pricesNoSUI "SUI" = none ∧
    rateLookup pricesWithZero "SUI" = 1 ∧
    quoteValue pricesWithZero "SUI" "USDC" 100 = quoteValue pricesNoSUI "SUI" "USDC" 100 ∧
    totalSent pricesWithZero [txSuiSent] = totalSent pricesNoSUI [txSuiSent] := by
  have hagree : ∀ x, x ≠ "SUI" → pricesWithZero x = pricesNoSUI x := by
    intro x hx
    unfold pricesWithZero pricesNoSUI
    rw [if_neg hx, if_neg hx]
  have h := zero_rate_is_unknown pricesWithZero pricesNoSUI "SUI" rfl rfl hagree
  exact ⟨rfl, rfl, h.1, h.2.1 "SUI" "USDC" 100, (h.2.2 [txSuiSent]).1⟩

end HashPay
